import Mathlib

/-!
Verification development for the BLE gateway controller
(`old-tests/test-7-good.py` is the authoritative source file: the frame
codec in `DCMonitorGateway.notification_handler`, the command layer in
`send_command` / `send_to_node` / `set_duty`, the scanner in
`scan_for_nodes`, and the power manager `PowerManager`).

Modelling conventions:
- Python `float` values (powers, thresholds, shares) are modelled as exact
  rationals `ℚ`; Python `int` as `Int`/`Nat`.
- Python strings are modelled as `String` / `List Char`; character classes
  (`\d`, whitespace) are modelled over the ASCII range the device protocol
  uses.
- A Python `dict` keyed by node id is modelled as an insertion-ordered
  association list, matching dict iteration order.
-/

set_option maxRecDepth 4000

/-! ### String / character utilities -/

/-- Whitespace characters removed by Python `str.strip()` (ASCII range). -/
def pyWs (c : Char) : Bool :=
  c == ' ' || c == '\t' || c == '\n' || c == '\x0d' || c == '\x0b' || c == '\x0c'

/-- Left part of Python `str.strip()`. -/
def pyStripLeft (l : List Char) : List Char := l.dropWhile pyWs

/-- Right part of Python `str.strip()`. -/
def pyStripRight (l : List Char) : List Char := (l.reverse.dropWhile pyWs).reverse

/-- Python `str.strip()`: remove leading and trailing whitespace. -/
def pyStrip (l : List Char) : List Char := pyStripRight (pyStripLeft l)

/-- `decoded.startswith('+')`. -/
def startsPlus (l : List Char) : Bool :=
  match l with
  | '+' :: _ => true
  | _ => false

/-- `a` is a leading run of `b` (Python `str.startswith`). -/
def isStart : List Char → List Char → Bool
  | [], _ => true
  | _ :: _, [] => false
  | a :: as, b :: bs => a == b && isStart as bs

/-- Numeric value of a digit string (Python `int(s)` for a `\d+` group). -/
def digitsToNat (l : List Char) : Nat :=
  l.foldl (fun n c => n * 10 + (c.toNat - 48)) 0

/-- Python `s.isdigit()` for ASCII strings: nonempty and all digits. -/
def isDigitStr (s : String) : Bool :=
  !s.data.isEmpty && s.data.all Char.isDigit

/-- Python `int(s)` on a digit string. -/
def strNat (s : String) : Nat := digitsToNat s.data

/-- Character class `[\d.]` of the sensor regex. -/
def isDigitDot (c : Char) : Bool := c.isDigit || c == '.'

/-- The literal `"ALL"` occurs as a contiguous substring. -/
def occursIn (pat l : List Char) : Prop := ∃ a b, l = a ++ pat ++ b

/-- Python `str.upper()` (ASCII). -/
def strUpper (s : String) : String := ⟨s.data.map Char.toUpper⟩

/-! ### Frame codec (`DCMonitorGateway.notification_handler`) -/

/-- Split on the first occurrence of `":DATA:"`
(Python `decoded.split(":DATA:", 1)` guarded by `":DATA:" in decoded`).
Returns `some (left, right)` when the separator occurs. -/
def splitOnDATA : List Char → Option (List Char × List Char)
  | [] => none
  | c :: rest =>
    if isStart [':', 'D', 'A', 'T', 'A', ':'] (c :: rest) then
      some ([], (c :: rest).drop 6)
    else
      match splitOnDATA rest with
      | some (a, b) => some (c :: a, b)
      | none => none

/-- `NODE_ID_RE.match(node_tag)` for `NODE(\d+)` with `re.IGNORECASE`,
anchored at the start; returns the digit group. -/
def matchNodeTag (l : List Char) : Option (List Char) :=
  match l with
  | n :: o :: d :: e :: rest =>
    if n.toUpper == 'N' && o.toUpper == 'O' && d.toUpper == 'D' && e.toUpper == 'E' then
      let digits := rest.takeWhile Char.isDigit
      if digits.isEmpty then none else some digits
    else none
  | _ => none

/-- Consume one character, case-insensitively (the regex is compiled with
`re.IGNORECASE`). -/
def eatCI (c : Char) (l : List Char) : Option (List Char) :=
  match l with
  | x :: rest => if x.toUpper == c.toUpper then some rest else none
  | [] => none

/-- Consume a nonempty maximal run of characters satisfying `p`
(the greedy groups `(\d+)` / `([\d.]+)`; the following literal is never in
the class, so maximal munch coincides with the regex semantics). -/
def takeRun (p : Char → Bool) (l : List Char) : Option (List Char × List Char) :=
  let g := l.takeWhile p
  if g.isEmpty then none else some (g, l.drop g.length)

/-- Consume a sequence of literal characters, each case-insensitively. -/
def eatCIs : List Char → List Char → Option (List Char)
  | [], l => some l
  | c :: cs, l =>
    match eatCI c l with
    | some r => eatCIs cs r
    | none => none

/-- `SENSOR_RE.match(payload)` for
`D:(\d+)%,V:([\d.]+)V,I:([\d.]+)mA,P:([\d.]+)mW` with `re.IGNORECASE`,
anchored at the start; returns the four groups (trailing text is ignored,
as with `re.match`). -/
def matchSensor (l : List Char) : Option (List Char × List Char × List Char × List Char) :=
  match eatCIs ['D', ':'] l with
  | none => none
  | some r =>
  match takeRun Char.isDigit r with
  | none => none
  | some (gDuty, r) =>
  match eatCIs ['%', ',', 'V', ':'] r with
  | none => none
  | some r =>
  match takeRun isDigitDot r with
  | none => none
  | some (gV, r) =>
  match eatCIs ['V', ',', 'I', ':'] r with
  | none => none
  | some r =>
  match takeRun isDigitDot r with
  | none => none
  | some (gI, r) =>
  match eatCIs ['m', 'A', ',', 'P', ':'] r with
  | none => none
  | some r =>
  match takeRun isDigitDot r with
  | none => none
  | some (gP, r) =>
  match eatCIs ['m', 'W'] r with
  | none => none
  | some _ => some (gDuty, gV, gI, gP)

/-- Classified notification line, one constructor per branch of the
handler's cascade. The numeric telemetry groups are kept as the matched
character runs; `duty` is `int(group(1))`. -/
inductive GwEvent where
  | telemetry (nodeId : List Char) (duty : Nat) (v i p : List Char)
  | dataLog (tag payload : List Char)
  | errorLine (line : List Char)
  | sentLine (line : List Char)
  | meshReady (line : List Char)
  | timeoutLine (line : List Char)
  | plain (line : List Char)
  deriving Repr, DecidableEq

/-- Classification cascade of `notification_handler` applied to a fully
reassembled line (branch order as in the source: `:DATA:`, `ERROR:`,
`SENT:`, `MESH_READY`, `TIMEOUT:`, fallthrough). -/
def classify (line : List Char) : GwEvent :=
  match splitOnDATA line with
  | some (tag, payload) =>
    match matchSensor payload, matchNodeTag tag with
    | some (gDuty, gV, gI, gP), some nid => .telemetry nid (digitsToNat gDuty) gV gI gP
    | _, _ => .dataLog tag payload
  | none =>
    if isStart ['E', 'R', 'R', 'O', 'R', ':'] line then .errorLine line
    else if isStart ['S', 'E', 'N', 'T', ':'] line then .sentLine line
    else if isStart ['M', 'E', 'S', 'H', '_', 'R', 'E', 'A', 'D', 'Y'] line then .meshReady line
    else if isStart ['T', 'I', 'M', 'E', 'O', 'U', 'T', ':'] line then .timeoutLine line
    else .plain line

/-- One notification chunk: strip, accumulate on a `+` prefix, otherwise
drain the continuation buffer and classify
(`notification_handler` lines 637-647 of the source). -/
def handleChunk (buf : List Char) (data : List Char) : List Char × Option GwEvent :=
  let decoded := pyStrip data
  if startsPlus decoded then (buf ++ decoded.tail, none)
  else ([], some (classify (buf ++ decoded)))

/-- Feed a sequence of chunks through the codec, collecting emitted events. -/
def feedMany (buf : List Char) : List (List Char) → List Char × List GwEvent
  | [] => (buf, [])
  | c :: cs =>
    let s := handleChunk buf c
    let rest := feedMany s.1 cs
    (rest.1, s.2.toList ++ rest.2)

/-- Concatenation of the pieces of a split message. -/
def listJoin : List (List Char) → List Char
  | [] => []
  | p :: ps => p ++ listJoin ps

/-! ### Node registry and power-manager state (`NodeState`, `PowerManager`) -/

/-- Last known state of a single mesh node (`NodeState` dataclass).
Telemetry magnitudes are `ℚ` standing for Python floats; `last_seen` is a
monotonic timestamp. -/
structure NodeState where
  node_id : String
  duty : Int := 0
  target_duty : Int := 0
  commanded_duty : Int := 0
  voltage : ℚ := 0
  current : ℚ := 0
  power : ℚ := 0
  last_seen : ℚ := 0
  responsive : Bool := true
  poll_gen : Nat := 0
  deriving Repr, DecidableEq

/-- `PowerManager.nodes`: insertion-ordered mapping from node id. -/
abbrev Registry := List (String × NodeState)

/-- Dict write: update in place, or append a new key at the end. -/
def regSet (reg : Registry) (k : String) (ns : NodeState) : Registry :=
  match reg with
  | [] => [(k, ns)]
  | (k', v) :: rest => if k' = k then (k, ns) :: rest else (k', v) :: regSet rest k ns

/-- Mutable fields of `PowerManager` that the control loop reads/writes. -/
structure PMState where
  nodes : Registry := []
  threshold_mw : Option ℚ := none
  priority_node : Option String := none
  last_adjustment : ℚ := 0
  adjusting : Bool := false
  poll_generation : Nat := 0
  deriving Repr, DecidableEq

/-! ### Command layer (`send_command`, `send_to_node`, `set_duty`) -/

/-- Sort key of the `ALL` expansion and the balancing loops:
`int(x) if x.isdigit() else 999`. -/
def sortKey (s : String) : Nat := if isDigitStr s then strNat s else 999

/-- Ordering relation used to model Python `sorted` with `sortKey`. -/
def idLe (a b : String) : Prop := sortKey a ≤ sortKey b

instance : DecidableRel idLe := fun a b => Nat.decLe (sortKey a) (sortKey b)

instance : IsTotal String idLe := ⟨fun a b => Nat.le_total (sortKey a) (sortKey b)⟩

instance : IsTrans String idLe := ⟨fun _ _ _ h1 h2 => Nat.le_trans h1 h2⟩

/-- Python `sorted(keys, key=lambda x: int(x) if x.isdigit() else 999)`
(insertion sort is stable, like Python's sort). -/
def sortIds (l : List String) : List String := List.insertionSort idLe l

/-- `"<node>:<VERB>[:<value>]"` as written to the command characteristic. -/
def mkCmd (verb : String) (value : Option String) (nid : String) : String :=
  match value with
  | some v => nid ++ ":" ++ verb ++ ":" ++ v
  | none => nid ++ ":" ++ verb

/-- The node ids actually used by the `ALL` expansion of `send_to_node`:
registry keys sorted by `sortKey` when the registry is nonempty, else the
fallback `["1", "2"]`; non-digit ids are skipped by the loop's
`continue`. An absent power manager behaves like an empty registry. -/
def expandAllIds (pmKeys : List String) : List String :=
  let ids := if pmKeys.isEmpty then ["1", "2"] else sortIds pmKeys
  ids.filter (fun s => isDigitStr s)

/-- `send_to_node(node, command, value)`: list of strings written to the
command characteristic, in order (`send_command` writes each verbatim). -/
def sendToNode (pmKeys : List String) (node verb : String) (value : Option String) :
    List String :=
  if strUpper node = "ALL" then (expandAllIds pmKeys).map (mkCmd verb value)
  else [mkCmd verb value node]

/-- `PowerManager.set_target_duty`: create the entry if missing, then store
the duty verbatim (clamping happens in the caller `set_duty`).
A fresh entry has the dataclass defaults. -/
def setTargetDuty (reg : Registry) (nodeId : String) (duty : Int) : Registry :=
  let base := ((reg.lookup nodeId).getD { node_id := nodeId })
  regSet reg nodeId { base with target_duty := duty }

/-- Registry effect of `DCMonitorGateway.set_duty` for a user-initiated call
with a power manager present: clamp the percent to [0,100], then record it
as the target for the addressed node (or for every known node — falling
back to ids 1 and 2 — when the node is `ALL`). -/
def setDutyReg (reg : Registry) (node : String) (percent : Int) : Registry :=
  let p := max 0 (min 100 percent)
  if strUpper node = "ALL" then
    let ids := if reg.isEmpty then ["1", "2"] else reg.map (fun kv => kv.1)
    ids.foldl (fun r nid => setTargetDuty r nid p) reg
  else setTargetDuty reg node p

/-! ### Power balancing (`_estimate_mw_per_pct`, `_nudge_node`, balancers) -/

/-- `ns.commanded_duty if ns.commanded_duty > 0 else ns.duty` (used both by
the estimator and by `_nudge_node`'s `current`). -/
def dutyVal (ns : NodeState) : Int :=
  if ns.commanded_duty > 0 then ns.commanded_duty else ns.duty

/-- The estimator's fallback list: `power/duty` over the nodes where that
ratio is well-defined. -/
def estimatesOf (allNodes : Registry) : List ℚ :=
  allNodes.filterMap (fun kv =>
    if 0 < dutyVal kv.2 ∧ 0 < kv.2.power then some (kv.2.power / (dutyVal kv.2 : ℚ))
    else none)

/-- `PowerManager._estimate_mw_per_pct`: own power/duty ratio when
well-defined, else the mean of the other nodes' well-defined ratios, else
the constant 50. -/
def estimateMwPerPct (ns : NodeState) (allNodes : Registry) : ℚ :=
  if 0 < dutyVal ns ∧ 0 < ns.power then ns.power / (dutyVal ns : ℚ)
  else if (estimatesOf allNodes).isEmpty then 50
  else (estimatesOf allNodes).sum / ((estimatesOf allNodes).length : ℚ)

/-- Python `int()` on a float: truncation toward zero. -/
def truncQ (x : ℚ) : Int := if 0 ≤ x then ⌊x⌋ else ⌈x⌉

/-- `PowerManager._nudge_node` decision: `some v` when a `DUTY:<v>` command
is sent (and `commanded_duty` set to `v`), `none` when no change is needed. -/
def nudgeNode (ns : NodeState) (targetShare : ℚ) (allNodes : Registry) : Option Int :=
  let mwPerPct := estimateMwPerPct ns allNodes
  let ideal := targetShare / mwPerPct
  let ceiling : Int := if 0 < ns.target_duty then ns.target_duty else 100
  let ideal2 := max 0 (min (ceiling : ℚ) ideal)
  let current := dutyVal ns
  let newDuty := truncQ ideal2
  if newDuty = current then none
  else
    let newDuty2 := max 0 (min 100 newDuty)
    if newDuty2 = current then none
    else some newDuty2

/-- One `_nudge_node` call inside a balancing loop: look the node up in the
(responsive) registry snapshot, apply the nudge, and emit the wire command
produced by `set_duty(nid, v, _from_power_mgr=True)`. The registry is
threaded because the Python nudges mutate the shared `NodeState` objects. -/
def nudgeApply (reg : Registry) (nid : String) (share : ℚ) : Registry × List String :=
  match reg.lookup nid with
  | none => (reg, [])
  | some ns =>
    match nudgeNode ns share reg with
    | none => (reg, [])
    | some v =>
      (regSet reg nid { ns with commanded_duty := v },
       sendToNode (reg.map (fun kv => kv.1)) nid "DUTY" (some (toString v)))

/-- `PowerManager._balance_proportional` over the responsive snapshot. -/
def balanceProportional (reg : Registry) (budget : ℚ) : Registry × List String :=
  let share := budget / (reg.length : ℚ)
  (sortIds (reg.map (fun kv => kv.1))).foldl
    (fun acc nid =>
      let s := nudgeApply acc.1 nid share
      (s.1, acc.2 ++ s.2))
    (reg, [])

/-- `PowerManager._balance_with_priority` over the responsive snapshot
(`p` is the priority node, present in `reg` by the caller's guard). -/
def balanceWithPriority (reg : Registry) (budget : ℚ) (p : String) : Registry × List String :=
  match reg.lookup p with
  | none => (reg, [])
  | some priorityNs =>
    let nonPriority := reg.filter (fun kv => kv.1 ≠ p)
    let totalShares : ℚ := 2 + (nonPriority.length : ℚ)
    let priorityBudget := budget * (2 / totalShares)
    let priMwPerPct := estimateMwPerPct priorityNs reg
    let priCeiling : Int := if 0 < priorityNs.target_duty then priorityNs.target_duty else 100
    let priMaxPower := (priCeiling : ℚ) * priMwPerPct
    let priorityBudget2 :=
      if priMaxPower < priorityBudget ∧ ¬nonPriority.isEmpty then priMaxPower
      else priorityBudget
    let remaining := budget - priorityBudget2
    let nonPriShare := if nonPriority.isEmpty then 0 else remaining / (nonPriority.length : ℚ)
    let s1 := nudgeApply reg p priorityBudget2
    (sortIds (nonPriority.map (fun kv => kv.1))).foldl
      (fun acc nid =>
        let s := nudgeApply acc.1 nid nonPriShare
        (s.1, acc.2 ++ s.2))
      s1

/-- Responsive snapshot taken by `_evaluate_and_adjust`. -/
def responsiveOf (st : PMState) : Registry :=
  st.nodes.filter (fun kv => kv.2.responsive)

/-- `total_power = sum(ns.power for ns in responsive.values())`. -/
def totalPowerOf (st : PMState) : ℚ :=
  ((responsiveOf st).map (fun kv => kv.2.power)).sum

/-- `all_at_target`: every responsive node has `commanded_duty >=
target_duty` or `target_duty == 0`. -/
def allAtTargetOf (st : PMState) : Bool :=
  (responsiveOf st).all (fun kv => kv.2.target_duty ≤ kv.2.commanded_duty || kv.2.target_duty == 0)

/-- `PowerManager._evaluate_and_adjust` at wall-clock time `now`: the
updated manager state and the commands written, in order. Guards in source
order: threshold unset or already adjusting; cooldown (5 s); empty
responsive set; non-positive budget (threshold − 500); 5 % dead band;
everything at target while under budget. Afterwards the responsive
snapshot is balanced (priority-weighted when the priority node is set,
nonempty and responsive) and `last_adjustment` is recorded. -/
def evaluateAndAdjust (st : PMState) (now : ℚ) : PMState × List String :=
  match st.threshold_mw with
  | none => (st, [])
  | some thr =>
    if st.adjusting then (st, [])
    else if now - st.last_adjustment < 5 then (st, [])
    else if (responsiveOf st).isEmpty then (st, [])
    else if thr - 500 ≤ 0 then (st, [])
    else if |totalPowerOf st - (thr - 500)| < (thr - 500) * (5 / 100) then (st, [])
    else if allAtTargetOf st ∧ totalPowerOf st ≤ thr - 500 then (st, [])
    else
      let s :=
        match st.priority_node with
        | some p =>
          if p ≠ "" ∧ ((responsiveOf st).lookup p).isSome then
            balanceWithPriority (responsiveOf st) (thr - 500) p
          else balanceProportional (responsiveOf st) (thr - 500)
        | none => balanceProportional (responsiveOf st) (thr - 500)
      let nodes2 := st.nodes.map (fun kv =>
        match s.1.lookup kv.1 with
        | some ns => (kv.1, ns)
        | none => kv)
      ({ st with nodes := nodes2, last_adjustment := now }, s.2)

/-! ### Telemetry intake (`on_sensor_data` and the handler's state effect) -/

/-- Decimal value of a `[\d.]+` group, as Python `float()` parses it
(valid when it has at least one digit and at most one dot; modelled as an
exact rational). -/
def parseDec (l : List Char) : Option ℚ :=
  if l.all isDigitDot ∧ l.count '.' ≤ 1 ∧ l.any Char.isDigit then
    let whole := l.takeWhile (fun c => c ≠ '.')
    let frac := (l.dropWhile (fun c => c ≠ '.')).drop 1
    some ((digitsToNat whole : ℚ) + (digitsToNat frac : ℚ) / ((10 : ℚ) ^ frac.length))
  else none

/-- `PowerManager.on_sensor_data`: create/update the node's entry; sync
`commanded_duty` from the reported duty only while the threshold is unset. -/
def onSensorData (st : PMState) (nodeId : String) (duty : Int)
    (voltage current power : ℚ) (now : ℚ) : PMState :=
  let base := (st.nodes.lookup nodeId).getD { node_id := nodeId }
  let upd := { base with duty := duty, voltage := voltage, current := current, power := power, last_seen := now, responsive := true, poll_gen := st.poll_generation }
  let ns := if st.threshold_mw = none then { upd with commanded_duty := duty } else upd
  { st with nodes := regSet st.nodes nodeId ns }

/-- Power-manager effect of one classified event in `notification_handler`:
only a fully parsed telemetry line reaches `on_sensor_data`; on any other
event the manager is untouched. (When `float()` cannot parse a matched
group the Python handler raises before touching the manager, so the state
is likewise unchanged.) -/
def applyEvent (st : PMState) (ev : GwEvent) (now : ℚ) : PMState :=
  match ev with
  | .telemetry nid d gV gI gP =>
    match parseDec gV, parseDec gI, parseDec gP with
    | some v, some i, some p => onSensorData st (String.mk nid) (Int.ofNat d) v i p now
    | _, _, _ => st
  | _ => st

/-! ### Scanner (`scan_for_nodes`) -/

/-- A discovered BLE advertisement, as the scanner sees it. -/
structure BleDevice where
  address : String
  name : Option String
  serviceUUIDs : List String
  deriving Repr, DecidableEq

/-- Address comparison: requested target (a falsy/empty target is treated
as absent, as Python truthiness does) against the device, case-folded. -/
def addrMatches (target : Option String) (d : BleDevice) : Bool :=
  match target with
  | some t => !(t == "") && (strUpper d.address == strUpper t)
  | none => false

/-- `device.name and any(p in device.name for p in DEVICE_NAME_PREFIXES)`:
the recognized names are matched by substring containment. -/
def containsSeq (pat : List Char) : List Char → Bool
  | [] => pat.isEmpty
  | c :: rest => isStart pat (c :: rest) || containsSeq pat rest

/-- Name criterion of the scanner (substring, per the source's `p in name`). -/
def nameMatches (d : BleDevice) : Bool :=
  match d.name with
  | some nm =>
    !(nm == "") &&
      (containsSeq "Mesh-Gateway".data nm.data || containsSeq "ESP-BLE-MESH".data nm.data)
  | none => false

/-- Service-UUID criterion: advertisement lists some UUIDs and the core
service UUID is among them, compared lowercase. -/
def uuidMatches (d : BleDevice) : Bool :=
  !d.serviceUUIDs.isEmpty &&
    (d.serviceUUIDs.map String.toLower).contains "0000dc01-0000-1000-8000-00805f9b34fb"

/-- The device-selection loop of `scan_for_nodes`: address match appends
and continues; otherwise the name criterion; otherwise the UUID criterion. -/
def scanFilter (target : Option String) : List BleDevice → List BleDevice
  | [] => []
  | d :: rest =>
    if addrMatches target d then d :: scanFilter target rest
    else if nameMatches d then d :: scanFilter target rest
    else if uuidMatches d then d :: scanFilter target rest
    else scanFilter target rest

/-! ### Concrete scenario states (spec §8, S2/S3/S4) -/

/-- S2 node N1: responsive, duty 100 %, 5000 mW (50 mW per duty-percent),
target 100 %, nothing commanded yet. -/
def n1S2 : NodeState :=
  { node_id := "1", duty := 100, target_duty := 100, commanded_duty := 0, power := 5000 }

/-- S2 node N2: same link as N1. -/
def n2S2 : NodeState :=
  { node_id := "2", duty := 100, target_duty := 100, commanded_duty := 0, power := 5000 }

/-- S2 manager: threshold 4000 mW (budget 3500), priority N1. -/
def s2State : PMState :=
  { nodes := [("1", n1S2), ("2", n2S2)], threshold_mw := some 4000, priority_node := some "1" }

/-- S3 node N1: target 50 % (maximum 2500 mW at 50 mW per duty-percent). -/
def n1S3 : NodeState :=
  { node_id := "1", duty := 100, target_duty := 50, commanded_duty := 0, power := 5000 }

/-- S3 node N2: target 100 %. -/
def n2S3 : NodeState :=
  { node_id := "2", duty := 100, target_duty := 100, commanded_duty := 0, power := 5000 }

/-- S3 manager: threshold 4000 mW (budget 3500), priority N1. -/
def s3State : PMState :=
  { nodes := [("1", n1S3), ("2", n2S3)], threshold_mw := some 4000, priority_node := some "1" }

/-- S4 manager: threshold 4000 mW (budget 3500), total power 3450 mW
(two responsive nodes at 1725 mW each), inside the 5 % dead band. -/
def s4State : PMState :=
  { nodes :=
      [("1", { node_id := "1", duty := 40, target_duty := 100, commanded_duty := 0, power := 1725 }),
       ("2", { node_id := "2", duty := 40, target_duty := 100, commanded_duty := 0, power := 1725 })],
    threshold_mw := some 4000 }

/-! ### Helper lemmas -/

/-- Writing a key with `regSet` makes it found with the written state. -/
theorem regSet_lookup (reg : Registry) (k : String) (ns : NodeState) :
    (regSet reg k ns).lookup k = some ns := by
  induction reg with
  | nil => simp [regSet, List.lookup]
  | cons kv rest ih =>
    obtain ⟨k', v⟩ := kv
    by_cases h : k' = k
    · simp [regSet, h, List.lookup]
    · have hne : (k == k') = false := beq_eq_false_iff_ne.mpr (fun hh => h hh.symm)
      simp only [regSet]
      rw [if_neg h]
      simp only [List.lookup, hne]
      exact ih

/-- Every element of the estimator's fallback list is positive. -/
theorem estimates_pos (allNodes : Registry) (x : ℚ) (hx : x ∈ estimatesOf allNodes) :
    0 < x := by
  rcases List.mem_filterMap.mp hx with ⟨kv, _, hkv⟩
  by_cases h : 0 < dutyVal kv.2 ∧ 0 < kv.2.power
  · rw [if_pos h] at hkv
    cases hkv
    exact div_pos h.2 (by exact_mod_cast h.1)
  · rw [if_neg h] at hkv
    cases hkv

/-! ### Claims -/

/-- C9: for every node state and registry contents, the mW-per-percent
estimator returns a strictly positive value (the node's own power/duty
ratio when both are positive, else the mean of other nodes' positive
ratios, else the constant 50), so the division of the target share by the
estimate inside the nudge never divides by zero. -/
theorem C9_theorem (ns : NodeState) (allNodes : Registry) :
    0 < estimateMwPerPct ns allNodes := by
  unfold estimateMwPerPct
  split_ifs with hown hempty
  · exact div_pos hown.2 (by exact_mod_cast hown.1)
  · norm_num
  · have hne : estimatesOf allNodes ≠ [] := by
      intro hnil
      rw [hnil] at hempty
      simp at hempty
    apply div_pos
    · exact List.sum_pos _ (fun x hx => estimates_pos allNodes x hx) hne
    · have : (estimatesOf allNodes).length ≠ 0 := by
        intro h0
        exact hne (List.length_eq_zero.mp h0)
      exact_mod_cast Nat.pos_of_ne_zero this

/-- C8: for every node identifier (anything but the broadcast `ALL`) and
every integer duty input, the facade's set-duty path creates the node's
registry entry if it is missing and stores a `target_duty` clamped to
[0,100] (the clamp is applied by `set_duty` before it calls
`set_target_duty`). -/
theorem C8_theorem (reg : Registry) (node : String) (d : Int)
    (h : strUpper node ≠ "ALL") :
    ((setDutyReg reg node d).lookup node).map (fun ns => ns.target_duty) =
      some (max 0 (min 100 d)) := by
  unfold setDutyReg
  rw [if_neg h]
  unfold setTargetDuty
  rw [regSet_lookup]
  rfl

/-- C8 witness: a fresh registry, node `"3"`, requested duty 150 — the
entry is created and the stored target is the clamped value 100. -/
theorem C8_witness :
    strUpper "3" ≠ "ALL" ∧
    ((setDutyReg [] "3" 150).lookup "3").map (fun ns => ns.target_duty) =
      some (max 0 (min 100 150)) :=
  ⟨by decide, C8_theorem [] "3" 150 (by decide)⟩

unseal Rat.mul Rat.inv Rat.add Rat.sub in
/-- C1 counterexample: in the S2 state the adjustment cycle does not write
`DUTY:47` to N1 — the nudge truncates 46.67 to 46, so the wire sequence
differs from the claimed one. -/
theorem C1_counterexample :
    (evaluateAndAdjust s2State 100).2 ≠ ["1:DUTY:47", "2:DUTY:23"] := by decide

unseal Rat.mul Rat.inv Rat.add Rat.sub in
/-- C1 (amended): in scenario S2 one adjustment cycle sends exactly
`DUTY:46` to N1 and `DUTY:23` to N2 (shares 3500·2/3 and 3500·1/3; the
nudge clamps the ideal duty and truncates it to an integer), and records
those values as the nodes' commanded duties. -/
theorem C1_theorem :
    (evaluateAndAdjust s2State 100).2 = ["1:DUTY:46", "2:DUTY:23"] ∧
    (((evaluateAndAdjust s2State 100).1.nodes.lookup "1").map
      (fun ns => ns.commanded_duty)) = some 46 ∧
    (((evaluateAndAdjust s2State 100).1.nodes.lookup "2").map
      (fun ns => ns.commanded_duty)) = some 23 := by decide

unseal Rat.mul Rat.inv Rat.add Rat.sub in
/-- C5 counterexample: in the S3 state the adjustment does not send
`DUTY:50` / `DUTY:20`: N1's maximum power 2500 mW is not below the
tentative priority budget 3500·2/3 ≈ 2333 mW, so no cap is applied and no
surplus flows to N2. -/
theorem C5_counterexample :
    (evaluateAndAdjust s3State 100).2 ≠ ["1:DUTY:50", "2:DUTY:20"] := by decide

unseal Rat.mul Rat.inv Rat.add Rat.sub in
/-- C5 (amended): in scenario S3 the tentative priority budget 3500·2/3 is
below N1's maximum `p_max = 2500`, so the cap branch (taken only when
`p_max < priority_budget`) does not fire; the cycle sends `DUTY:46` to N1
(clamped below its 50 % target) and `DUTY:23` to N2. -/
theorem C5_theorem :
    (evaluateAndAdjust s3State 100).2 = ["1:DUTY:46", "2:DUTY:23"] ∧
    ¬((50 : ℚ) * 50 < 3500 * (2 / (2 + 1))) := by decide

/-- C7 counterexample: with a target address given, `scan_for_nodes` still
returns devices whose address differs but whose name matches; and the name
test is substring containment, not a prefix test (`"XMesh-GatewayY"` does
not begin with either recognized prefix yet is returned). -/
theorem C7_counterexample :
    scanFilter (some "AA:BB")
        [{ address := "AA:BB", name := none, serviceUUIDs := [] },
         { address := "CC:DD", name := some "XMesh-GatewayY", serviceUUIDs := [] }] =
      [{ address := "AA:BB", name := none, serviceUUIDs := [] },
       { address := "CC:DD", name := some "XMesh-GatewayY", serviceUUIDs := [] }] ∧
    ("CC:DD" : String) ≠ "AA:BB" ∧
    scanFilter none [{ address := "CC:DD", name := some "XMesh-GatewayY", serviceUUIDs := [] }] =
      [{ address := "CC:DD", name := some "XMesh-GatewayY", serviceUUIDs := [] }] ∧
    isStart "Mesh-Gateway".data "XMesh-GatewayY".data = false ∧
    isStart "ESP-BLE-MESH".data "XMesh-GatewayY".data = false := by decide

/-- C7 (amended): the scanner's result is exactly the filter of the
discovered devices by "address matches the given target, or the advertised
name contains one of the recognized prefixes as a substring, or the
advertised service-UUID set contains the core service UUID"; a given
target address adds an address criterion but does not exclude the other
matches, and an empty result is an ordinary value, not an error. -/
theorem C7_theorem (target : Option String) (found : List BleDevice) :
    scanFilter target found =
      found.filter (fun d => addrMatches target d || nameMatches d || uuidMatches d) := by
  induction found with
  | nil => rfl
  | cons d rest ih =>
    by_cases h1 : addrMatches target d
    · simp [scanFilter, h1, List.filter_cons, ih]
    · by_cases h2 : nameMatches d
      · simp [scanFilter, h1, h2, List.filter_cons, ih]
      · by_cases h3 : uuidMatches d
        · simp [scanFilter, h1, h2, h3, List.filter_cons, ih]
        · simp [scanFilter, h1, h2, h3, List.filter_cons, ih]

/-- C10: a reassembled line that contains `":DATA:"` but whose left part
does not match `NODE<digits>` at its start, or whose right part does not
match the sensor payload pattern at its start, is classified as a raw data
log line, and the power manager's state is completely unchanged by it. -/
theorem C10_theorem (st : PMState) (now : ℚ) (line tag payload : List Char)
    (hsplit : splitOnDATA line = some (tag, payload))
    (hbad : matchNodeTag tag = none ∨ matchSensor payload = none) :
    classify line = GwEvent.dataLog tag payload ∧
    applyEvent st (classify line) now = st := by
  have hc : classify line = GwEvent.dataLog tag payload := by
    unfold classify
    rw [hsplit]
    dsimp only
    rcases hbad with h | h
    · rw [h]
      cases hms : matchSensor payload with
      | none => rfl
      | some g =>
        obtain ⟨g1, g2, g3, g4⟩ := g
        rfl
    · rw [h]
  refine ⟨hc, ?_⟩
  rw [hc]
  rfl

/-- C10 witness: the line `NODEX:DATA:junk` contains `":DATA:"`, its left
part has no digits after `NODE`, and feeding it leaves an empty manager
untouched. -/
theorem C10_witness :
    splitOnDATA "NODEX:DATA:junk".data = some ("NODEX".data, "junk".data) ∧
    matchNodeTag "NODEX".data = none ∧
    classify "NODEX:DATA:junk".data = GwEvent.dataLog "NODEX".data "junk".data ∧
    applyEvent {} (classify "NODEX:DATA:junk".data) 0 = {} :=
  ⟨by decide, by decide,
   (C10_theorem {} 0 "NODEX:DATA:junk".data "NODEX".data "junk".data (by decide)
     (Or.inl (by decide))).1,
   (C10_theorem {} 0 "NODEX:DATA:junk".data "NODEX".data "junk".data (by decide)
     (Or.inl (by decide))).2⟩

/-- C2: for every node with a positive target (targets are 0–100 by the
data model) and a non-negative commanded duty, a nudge never sends a
`DUTY` value above `target_duty` (nor below 0), and afterwards
`0 ≤ commanded_duty ≤ target_duty ≤ 100` holds: an adjustment can only
keep or lower the commanded duty relative to the target ceiling. -/
theorem C2_theorem (ns : NodeState) (share : ℚ) (allNodes : Registry)
    (h1 : 0 < ns.target_duty) (h2 : ns.target_duty ≤ 100)
    (h3 : 0 ≤ ns.commanded_duty) :
    (∀ v, nudgeNode ns share allNodes = some v → 0 ≤ v ∧ v ≤ ns.target_duty) ∧
    0 ≤ (nudgeNode ns share allNodes).getD ns.commanded_duty ∧
    (nudgeNode ns share allNodes).getD ns.commanded_duty ≤ ns.target_duty ∧
    ns.target_duty ≤ 100 := by
  have hceil : (if 0 < ns.target_duty then ns.target_duty else 100) = ns.target_duty :=
    if_pos h1
  have hA : (0 : ℚ) ≤ max 0 (min ((ns.target_duty : Int) : ℚ)
      (share / estimateMwPerPct ns allNodes)) := le_max_left _ _
  have hB : max 0 (min ((ns.target_duty : Int) : ℚ) (share / estimateMwPerPct ns allNodes)) ≤
      ((ns.target_duty : Int) : ℚ) :=
    max_le (by exact_mod_cast h1.le) (min_le_left _ _)
  have htr : truncQ (max 0 (min ((ns.target_duty : Int) : ℚ)
      (share / estimateMwPerPct ns allNodes))) =
      ⌊max 0 (min ((ns.target_duty : Int) : ℚ) (share / estimateMwPerPct ns allNodes))⌋ :=
    if_pos hA
  have hC : 0 ≤ ⌊max 0 (min ((ns.target_duty : Int) : ℚ)
      (share / estimateMwPerPct ns allNodes))⌋ := Int.floor_nonneg.mpr hA
  have hD : ⌊max 0 (min ((ns.target_duty : Int) : ℚ)
      (share / estimateMwPerPct ns allNodes))⌋ ≤ ns.target_duty := by
    have := Int.floor_le_floor hB
    rwa [Int.floor_intCast] at this
  simp only [nudgeNode, hceil, htr]
  split_ifs with hEq1 hEq2
  · refine ⟨fun v hv => (by cases hv), h3, ?_, h2⟩
    simp only [Option.getD]
    by_cases hcp : 0 < ns.commanded_duty
    · have : dutyVal ns = ns.commanded_duty := if_pos hcp
      rw [this] at hEq1
      omega
    · omega
  · refine ⟨fun v hv => (by cases hv), h3, ?_, h2⟩
    simp only [Option.getD]
    by_cases hcp : 0 < ns.commanded_duty
    · have : dutyVal ns = ns.commanded_duty := if_pos hcp
      rw [this] at hEq2
      omega
    · omega
  · have hv0 : (0 : Int) ≤ max 0 (min 100 (⌊max 0 (min ((ns.target_duty : Int) : ℚ)
        (share / estimateMwPerPct ns allNodes))⌋)) := le_max_left _ _
    have hvT : max 0 (min 100 (⌊max 0 (min ((ns.target_duty : Int) : ℚ)
        (share / estimateMwPerPct ns allNodes))⌋)) ≤ ns.target_duty := by omega
    exact ⟨fun v hv => by cases hv; exact ⟨hv0, hvT⟩, hv0, hvT, h2⟩

/-- C2 witness: a concrete nudge — node with target 50 %, commanded 0,
duty 100 % at 5000 mW, share 1000 mW — satisfies the hypotheses, and the
bound theorem applies to it. -/
theorem C2_witness :
    (0 : Int) < 50 ∧ (50 : Int) ≤ 100 ∧ (0 : Int) ≤ 0 ∧
    ((∀ v, nudgeNode ({ node_id := "1", duty := 100, target_duty := 50, commanded_duty := 0, power := 5000 } : NodeState) 1000 [] = some v → 0 ≤ v ∧ v ≤ (50 : Int)) ∧
      0 ≤ (nudgeNode ({ node_id := "1", duty := 100, target_duty := 50, commanded_duty := 0, power := 5000 } : NodeState) 1000 []).getD 0 ∧
      (nudgeNode ({ node_id := "1", duty := 100, target_duty := 50, commanded_duty := 0, power := 5000 } : NodeState) 1000 []).getD 0 ≤ (50 : Int) ∧
      (50 : Int) ≤ 100) :=
  ⟨by decide, by decide, by decide,
   C2_theorem ({ node_id := "1", duty := 100, target_duty := 50, commanded_duty := 0, power := 5000 } : NodeState) 1000 [] (by decide) (by decide) (by decide)⟩

/-- A decimal digit is never the letter `L`. -/
theorem digit_ne_L (c : Char) (h : c.isDigit = true) : c ≠ 'L' := by
  intro hcl
  rw [hcl] at h
  exact absurd h (by decide)

/-- No command built by `send_to_node` contains the letter `L`: node ids
are digits, the verb set is `L`-free, and values are decimal digits. -/
theorem mkCmd_ne_L (verb : String) (value : Option String) (nid : String)
    (hn : nid.data.all Char.isDigit = true)
    (hverb : verb ∈ (["READ", "DUTY", "RAMP", "STOP", "STATUS", "MONITOR", "ON", "OFF"] : List String))
    (hval : ∀ v, value = some v → v.data.all Char.isDigit = true) :
    ∀ c ∈ (mkCmd verb value nid).data, c ≠ 'L' := by
  have hverbL : ∀ c ∈ verb.data, c ≠ 'L' := by fin_cases hverb <;> decide
  have hnidL : ∀ c ∈ nid.data, c ≠ 'L' := fun c hc =>
    digit_ne_L c ((List.all_eq_true.mp hn) c hc)
  cases value with
  | none =>
    intro c hc
    simp only [mkCmd, String.data_append] at hc
    rcases List.mem_append.mp hc with h | h
    · rcases List.mem_append.mp h with h2 | h2
      · exact hnidL c h2
      · intro hcl
        rw [hcl] at h2
        exact absurd h2 (by decide)
    · exact hverbL c h
  | some v =>
    have hvL : ∀ c ∈ v.data, c ≠ 'L' := fun c hc =>
      digit_ne_L c ((List.all_eq_true.mp (hval v rfl)) c hc)
    intro c hc
    simp only [mkCmd, String.data_append] at hc
    rcases List.mem_append.mp hc with h | h
    · rcases List.mem_append.mp h with h2 | h2
      · rcases List.mem_append.mp h2 with h3 | h3
        · rcases List.mem_append.mp h3 with h4 | h4
          · exact hnidL c h4
          · intro hcl
            rw [hcl] at h4
            exact absurd h4 (by decide)
        · exact hverbL c h3
      · intro hcl
        rw [hcl] at h2
        exact absurd h2 (by decide)
    · exact hvL c h

/-- A string all of whose characters differ from `L` cannot contain the
substring `ALL`. -/
theorem noALL_of_ne_L (l : List Char) (h : ∀ c ∈ l, c ≠ 'L') :
    ¬ occursIn "ALL".data l := by
  rintro ⟨a, b, hab⟩
  have hmem : 'L' ∈ l := by
    rw [hab]
    exact List.mem_append.mpr (Or.inl (List.mem_append.mpr (Or.inr (by decide))))
  exact h 'L' hmem rfl

/-- The numeric values of the ids emitted by the `ALL` expansion are
non-decreasing. -/
theorem expandAll_sorted (pmKeys : List String) :
    List.Sorted (· ≤ ·) ((expandAllIds pmKeys).map strNat) := by
  simp only [expandAllIds]
  by_cases he : pmKeys.isEmpty
  · rw [if_pos he]
    decide
  · rw [if_neg he]
    have hs : List.Sorted idLe (sortIds pmKeys) := List.sorted_insertionSort idLe pmKeys
    have hfs : ((sortIds pmKeys).filter (fun s => isDigitStr s)).Pairwise idLe :=
      hs.filter (fun s => isDigitStr s)
    apply List.pairwise_map.mpr
    apply List.Pairwise.imp_of_mem ?_ hfs
    intro a b ha hb hle
    have hda : isDigitStr a = true := (List.mem_filter.mp ha).2
    have hdb : isDigitStr b = true := (List.mem_filter.mp hb).2
    have : sortKey a ≤ sortKey b := hle
    rwa [sortKey, sortKey, if_pos hda, if_pos hdb] at this

/-- The `ALL` expansion emits exactly the digit-identified registry keys
(or the fallback ids when the registry is empty), reordered. -/
theorem expandAll_perm (pmKeys : List String) :
    List.Perm (expandAllIds pmKeys)
      ((if pmKeys.isEmpty then ["1", "2"] else pmKeys).filter (fun s => isDigitStr s)) := by
  simp only [expandAllIds]
  by_cases he : pmKeys.isEmpty
  · rw [if_pos he, if_pos he]
  · rw [if_neg he, if_neg he]
    exact (List.perm_insertionSort idLe pmKeys).filter (fun s => isDigitStr s)

/-- C3: for every `send_to_node` call with node `ALL` (any letter case),
the bytes written to the command characteristic are one command per
digit-identified registry entry in ascending numeric order — or one
command each for ids 1 and 2 when the registry is empty or absent — and
the string `ALL` never appears in any command written by `send_to_node`
(for any digit node or broadcast, any of the gateway's verbs, and any
decimal value). -/
theorem C3_theorem (pmKeys : List String) (node verb : String) (value : Option String)
    (hverb : verb ∈ (["READ", "DUTY", "RAMP", "STOP", "STATUS", "MONITOR", "ON", "OFF"] : List String))
    (hval : ∀ v, value = some v → v.data.all Char.isDigit = true)
    (hnode : isDigitStr node = true ∨ strUpper node = "ALL") :
    (strUpper node = "ALL" →
      sendToNode pmKeys node verb value = (expandAllIds pmKeys).map (mkCmd verb value) ∧
      List.Perm (expandAllIds pmKeys)
        ((if pmKeys.isEmpty then ["1", "2"] else pmKeys).filter (fun s => isDigitStr s)) ∧
      List.Sorted (· ≤ ·) ((expandAllIds pmKeys).map strNat) ∧
      (pmKeys = [] → expandAllIds pmKeys = ["1", "2"])) ∧
    ∀ cmd ∈ sendToNode pmKeys node verb value, ¬ occursIn "ALL".data cmd.data := by
  constructor
  · intro hALL
    refine ⟨by simp [sendToNode, hALL], expandAll_perm pmKeys, expandAll_sorted pmKeys, ?_⟩
    intro hnil
    subst hnil
    decide
  · intro cmd hcmd
    by_cases hALL : strUpper node = "ALL"
    · simp only [sendToNode] at hcmd
      rw [if_pos hALL] at hcmd
      rcases List.mem_map.mp hcmd with ⟨nid, hnid, rfl⟩
      simp only [expandAllIds] at hnid
      have hd : isDigitStr nid = true := (List.mem_filter.mp hnid).2
      have hall : nid.data.all Char.isDigit = true := by
        simp only [isDigitStr, Bool.and_eq_true] at hd
        exact hd.2
      exact noALL_of_ne_L _ (mkCmd_ne_L verb value nid hall hverb hval)
    · have hdig : isDigitStr node = true := hnode.resolve_right hALL
      simp only [sendToNode] at hcmd
      rw [if_neg hALL] at hcmd
      rcases List.mem_singleton.mp hcmd with rfl
      have hall : node.data.all Char.isDigit = true := by
        simp only [isDigitStr, Bool.and_eq_true] at hdig
        exact hdig.2
      exact noALL_of_ne_L _ (mkCmd_ne_L verb value node hall hverb hval)

/-- C3 witness: broadcast `"all"` with verb `READ`, no value, and an
absent/empty registry — the hypotheses hold and the expansion theorem
applies, yielding the fallback sends for ids 1 and 2 and an `ALL`-free
wire. -/
theorem C3_witness :
    ("READ" : String) ∈ (["READ", "DUTY", "RAMP", "STOP", "STATUS", "MONITOR", "ON", "OFF"] : List String) ∧
    (isDigitStr "all" = true ∨ strUpper "all" = "ALL") ∧
    ((strUpper "all" = "ALL" →
      sendToNode [] "all" "READ" none = (expandAllIds []).map (mkCmd "READ" none) ∧
      List.Perm (expandAllIds [])
        ((if ([] : List String).isEmpty then ["1", "2"] else []).filter (fun s => isDigitStr s)) ∧
      List.Sorted (· ≤ ·) ((expandAllIds []).map strNat) ∧
      (([] : List String) = [] → expandAllIds [] = ["1", "2"])) ∧
    ∀ cmd ∈ sendToNode [] "all" "READ" none, ¬ occursIn "ALL".data cmd.data) :=
  ⟨by decide, Or.inr (by decide),
   C3_theorem [] "all" "READ" none (by decide)
     (fun v hv => by cases hv) (Or.inr (by decide))⟩

/-- C6: evaluate-and-adjust writes no commands and leaves the entire
manager state (in particular every node) untouched whenever any of these
hold: the responsive set is empty; less than the 5 s cooldown has elapsed;
the budget `threshold − 500` is non-positive; the total responsive power
is within the 5 % dead band of the budget; or every responsive node is at
or above its target (or has target 0) while the total is within budget. -/
theorem C6_theorem (st : PMState) (now : ℚ) (thr : ℚ)
    (hthr : st.threshold_mw = some thr)
    (hD : (responsiveOf st).isEmpty = true
        ∨ now - st.last_adjustment < 5
        ∨ thr - 500 ≤ 0
        ∨ |totalPowerOf st - (thr - 500)| < (thr - 500) * (5 / 100)
        ∨ (allAtTargetOf st = true ∧ totalPowerOf st ≤ thr - 500)) :
    evaluateAndAdjust st now = (st, []) := by
  unfold evaluateAndAdjust
  rw [hthr]
  dsimp only
  split_ifs with g1 g2 g3 g4 g5 g6
  all_goals try rfl
  exfalso
  rcases hD with h | h | h | h | h
  · exact g3 h
  · exact g2 h
  · exact g4 h
  · exact g5 h
  · exact g6 ⟨h.1, h.2⟩

/-- C6 witness: the S4 state — budget 3500 mW, total responsive power
3450 mW, within the 175 mW dead band — produces no writes and no state
change. -/
theorem C6_witness :
    s4State.threshold_mw = some 4000 ∧
    |totalPowerOf s4State - (4000 - 500)| < (4000 - 500) * (5 / 100) ∧
    evaluateAndAdjust s4State 100 = (s4State, []) := by
  refine ⟨rfl, ?_, ?_⟩
  · norm_num [totalPowerOf, responsiveOf, s4State]
  · exact C6_theorem s4State 100 4000 rfl
      (Or.inr (Or.inr (Or.inr (Or.inl (by norm_num [totalPowerOf, responsiveOf, s4State])))))

/-- `dropWhile` fixes a concatenation when it fixes both parts. -/
theorem dropWhile_append_fix (p : Char → Bool) (xs ys : List Char)
    (h1 : xs.dropWhile p = xs) (h2 : ys.dropWhile p = ys) :
    (xs ++ ys).dropWhile p = xs ++ ys := by
  cases xs with
  | nil => simpa using h2
  | cons c cs =>
    by_cases hpc : p c
    · exfalso
      rw [List.dropWhile_cons, if_pos hpc] at h1
      have := (List.dropWhile_suffix p (l := cs)).length_le
      rw [h1] at this
      simp at this
    · rw [List.cons_append, List.dropWhile_cons, if_neg hpc]

/-- A strip-invariant chunk has no leading whitespace. -/
theorem pyStrip_left_eq (x : List Char) (h : pyStrip x = x) :
    x.dropWhile pyWs = x := by
  have h1 : (x.dropWhile pyWs).length ≤ x.length := (List.dropWhile_suffix pyWs).length_le
  have h2 : (pyStrip x).length ≤ (x.dropWhile pyWs).length := by
    unfold pyStrip pyStripRight pyStripLeft
    calc ((((x.dropWhile pyWs).reverse.dropWhile pyWs)).reverse).length
        = ((x.dropWhile pyWs).reverse.dropWhile pyWs).length := List.length_reverse _
      _ ≤ (x.dropWhile pyWs).reverse.length := (List.dropWhile_suffix pyWs).length_le
      _ = (x.dropWhile pyWs).length := List.length_reverse _
  rw [h] at h2
  exact List.IsSuffix.eq_of_length (List.dropWhile_suffix pyWs) (Nat.le_antisymm h1 h2)

/-- A strip-invariant chunk has no trailing whitespace. -/
theorem pyStrip_right_eq (x : List Char) (h : pyStrip x = x) :
    x.reverse.dropWhile pyWs = x.reverse := by
  have hl := pyStrip_left_eq x h
  have hr : pyStripRight x = x := by
    unfold pyStrip pyStripLeft at h
    rwa [hl] at h
  unfold pyStripRight at hr
  calc x.reverse.dropWhile pyWs
      = ((x.reverse.dropWhile pyWs).reverse).reverse := (List.reverse_reverse _).symm
    _ = x.reverse := by rw [hr]

/-- Stripping a continuation chunk `'+' ++ p` keeps the `+` and all of a
strip-invariant `p` (the `+` shields `p`'s leading side, and `p` has no
trailing whitespace). -/
theorem pyStrip_plus (p : List Char) (h : pyStrip p = p) :
    pyStrip ('+' :: p) = '+' :: p := by
  unfold pyStrip pyStripLeft pyStripRight
  rw [List.dropWhile_cons, if_neg (by decide)]
  rw [List.reverse_cons]
  rw [dropWhile_append_fix pyWs p.reverse ['+'] (pyStrip_right_eq p h) (by decide)]
  simp [List.reverse_append]

/-- The concatenation of strip-invariant pieces has no leading whitespace. -/
theorem listJoin_left_fix (ps : List (List Char)) (hps : ∀ p ∈ ps, pyStrip p = p) :
    (listJoin ps).dropWhile pyWs = listJoin ps := by
  induction ps with
  | nil => rfl
  | cons p rest ih =>
    simp only [listJoin]
    exact dropWhile_append_fix pyWs p (listJoin rest)
      (pyStrip_left_eq p (hps p (List.mem_cons_self p rest)))
      (ih (fun x hx => hps x (List.mem_cons_of_mem p hx)))

/-- The concatenation of strip-invariant pieces has no trailing whitespace. -/
theorem listJoin_right_fix (ps : List (List Char)) (hps : ∀ p ∈ ps, pyStrip p = p) :
    (listJoin ps).reverse.dropWhile pyWs = (listJoin ps).reverse := by
  induction ps with
  | nil => rfl
  | cons p rest ih =>
    simp only [listJoin, List.reverse_append]
    exact dropWhile_append_fix pyWs (listJoin rest).reverse p.reverse
      (ih (fun x hx => hps x (List.mem_cons_of_mem p hx)))
      (pyStrip_right_eq p (hps p (List.mem_cons_self p rest)))

/-- The concatenation of strip-invariant pieces is strip-invariant. -/
theorem pyStrip_listJoin (ps : List (List Char)) (hps : ∀ p ∈ ps, pyStrip p = p) :
    pyStrip (listJoin ps) = listJoin ps := by
  unfold pyStrip pyStripLeft pyStripRight
  rw [listJoin_left_fix ps hps, listJoin_right_fix ps hps, List.reverse_reverse]

/-- A continuation chunk is accumulated verbatim and emits nothing. -/
theorem handleChunk_plus (buf p : List Char) (h : pyStrip p = p) :
    handleChunk buf ('+' :: p) = (buf ++ p, none) := by
  unfold handleChunk
  rw [pyStrip_plus p h]
  rfl

/-- A final strip-invariant chunk with no `+` drains the buffer and emits
one classified event. -/
theorem handleChunk_final (buf q : List Char) (hq : pyStrip q = q)
    (h2 : startsPlus q = false) :
    handleChunk buf q = ([], some (classify (buf ++ q))) := by
  unfold handleChunk
  rw [hq]
  simp [h2]

/-- Feeding `+`-prefixed strip-invariant pieces and then a final chunk
reassembles their concatenation into one classified event. -/
theorem feedMany_split (ps : List (List Char)) (q : List Char)
    (hps : ∀ p ∈ ps, pyStrip p = p) (hq : pyStrip q = q)
    (hq2 : startsPlus q = false) :
    ∀ buf, feedMany buf (ps.map (fun p => '+' :: p) ++ [q]) =
      ([], [classify (buf ++ (listJoin ps ++ q))]) := by
  induction ps with
  | nil =>
    intro buf
    simp only [List.map_nil, List.nil_append, listJoin]
    unfold feedMany
    rw [handleChunk_final buf q hq hq2]
    simp [feedMany]
  | cons p rest ih =>
    intro buf
    simp only [List.map_cons, List.cons_append]
    unfold feedMany
    rw [handleChunk_plus buf p (hps p (List.mem_cons_self p rest))]
    have := ih (fun x hx => hps x (List.mem_cons_of_mem p hx)) (buf ++ p)
    simp only [this]
    simp [listJoin, List.append_assoc]

/-- Concatenation distributes over `listJoin`. -/
theorem listJoin_append (a b : List (List Char)) :
    listJoin (a ++ b) = listJoin a ++ listJoin b := by
  induction a with
  | nil => rfl
  | cons p rest ih => simp [listJoin, ih]

/-- C4 counterexample: split `m = "X+Y"` into the pieces `"X"`, `"+Y"`.
Feeding `"+X"` then `"+Y"` (final piece unprefixed, but it begins with
`'+'`) emits no event and leaves `"XY"` in the buffer, while feeding the
whole message emits exactly one event — so the unrestricted reassembly law
fails. -/
theorem C4_counterexample :
    feedMany [] [['+', 'X'], ['+', 'Y']] = (['X', 'Y'], []) ∧
    feedMany [] [['X', '+', 'Y']] = ([], [GwEvent.plain ['X', '+', 'Y']]) := by decide

/-- C4 (amended): for every message assembled from pieces none of which
begins or ends in whitespace, provided the final piece does not begin with
`'+'` and the whole message does not begin with `'+'`, feeding the codec
each non-final piece prefixed with `'+'` followed by the final piece
unprefixed produces exactly one classified event, equal to the event
produced by feeding the whole message as a single chunk, and leaves the
continuation buffer empty afterwards. -/
theorem C4_theorem (ps : List (List Char)) (q : List Char)
    (hps : ∀ p ∈ ps, pyStrip p = p) (hq : pyStrip q = q)
    (hq2 : startsPlus q = false)
    (hm : startsPlus (listJoin ps ++ q) = false) :
    feedMany [] (ps.map (fun p => '+' :: p) ++ [q]) =
      ([], [classify (listJoin ps ++ q)]) ∧
    feedMany [] [listJoin ps ++ q] = ([], [classify (listJoin ps ++ q)]) := by
  constructor
  · have := feedMany_split ps q hps hq hq2 []
    simpa using this
  · have hjq : pyStrip (listJoin ps ++ q) = listJoin ps ++ q := by
      have hj : listJoin ps ++ q = listJoin (ps ++ [q]) := by
        rw [listJoin_append]
        simp [listJoin]
      rw [hj]
      apply pyStrip_listJoin
      intro p hp
      rcases List.mem_append.mp hp with h | h
      · exact hps p h
      · rcases List.mem_singleton.mp h with rfl
        exact hq
    unfold feedMany
    rw [handleChunk_final [] (listJoin ps ++ q) hjq hm]
    simp [feedMany]

/-- C4 witness: the S5 stream `+NODE1:DAT`, `+A:D:50%,V:12.000V,`,
`I:100.0mA,P:1200.0mW` satisfies the hypotheses, reassembles to a single
telemetry event for node 1 (duty 50, V 12.000, I 100.0, P 1200.0), and
empties the buffer. -/
theorem C4_witness :
    (∀ p ∈ [("NODE1:DAT").data, ("A:D:50%,V:12.000V,").data], pyStrip p = p) ∧
    pyStrip ("I:100.0mA,P:1200.0mW").data = ("I:100.0mA,P:1200.0mW").data ∧
    startsPlus ("I:100.0mA,P:1200.0mW").data = false ∧
    startsPlus (listJoin [("NODE1:DAT").data, ("A:D:50%,V:12.000V,").data] ++
      ("I:100.0mA,P:1200.0mW").data) = false ∧
    (feedMany [] ([("NODE1:DAT").data, ("A:D:50%,V:12.000V,").data].map (fun p => '+' :: p) ++
        [("I:100.0mA,P:1200.0mW").data]) =
      ([], [classify (listJoin [("NODE1:DAT").data, ("A:D:50%,V:12.000V,").data] ++
        ("I:100.0mA,P:1200.0mW").data)]) ∧
     feedMany [] [listJoin [("NODE1:DAT").data, ("A:D:50%,V:12.000V,").data] ++
        ("I:100.0mA,P:1200.0mW").data] =
      ([], [classify (listJoin [("NODE1:DAT").data, ("A:D:50%,V:12.000V,").data] ++
        ("I:100.0mA,P:1200.0mW").data)])) ∧
    classify (listJoin [("NODE1:DAT").data, ("A:D:50%,V:12.000V,").data] ++
        ("I:100.0mA,P:1200.0mW").data) =
      GwEvent.telemetry ['1'] 50 ("12.000").data ("100.0").data ("1200.0").data :=
  ⟨by decide, by decide, by decide, by decide,
   C4_theorem [("NODE1:DAT").data, ("A:D:50%,V:12.000V,").data] ("I:100.0mA,P:1200.0mW").data
     (by decide) (by decide) (by decide) (by decide),
   by decide⟩
